import Mathlib

/-!
Verification of the broadcast audio source and passive scanner
(src/apps/scanner/src/main.c) against its natural-language specification.

The development shallowly embeds the pieces of the C program the claims
depend on:

* the per-stream mutable state of `struct broadcast_source_stream`
  (`seq_num`, `sent_cnt`, whether `lc3_encoder` is non-NULL);
* the body of `send_data` as a pure step function; the outcome of the
  external calls `lc3_encode` and `bt_bap_stream_send` are inputs
  (`encRet`, `txRet`), exactly the two return values the C code branches
  on.  `net_buf_alloc(&tx_pool, K_FOREVER)` blocks until a buffer is
  available and never returns NULL, so the dead NULL branch is omitted;
* the encoder worker loop of `init_lc3_thread` (take the credit
  semaphore once per stream, then call `send_data` on every stream in
  fixed index order) as `runStream` / `runBroadcast`;
* the parameter-resolution and encoder-setup phase of `init_lc3_thread`;
* the semaphore protocol of `main` / the stream callbacks
  (`sem_started`, `lc3_encoder_sem`, the seeding loop) as a labelled
  transition system `Step` over `SysState`;
* the USB-feed underflow compensation of `send_data`
  (`ring_buf_get` + `memset` padding);
* the advertisement parser `broadcast_source_found` /
  `broadcast_scan_recv` of the scanner application.

Diagnostic `printk` calls are modelled as elements of the `Report` type
so that "reported" / "silent" can be stated.  Machine integers: `seq_num`
is a C `uint16_t`, embedded as `Nat` reduced `% 65536` exactly where the
C value wraps; the C `int` return codes are embedded as `Int`.
-/

namespace BroadcastAudio

/-- `#define BROADCAST_ENQUEUE_COUNT 3U` (main.c line 154). -/
def BROADCAST_ENQUEUE_COUNT : Nat := 3

/-- `#define TOTAL_BUF_NEEDED (BROADCAST_ENQUEUE_COUNT * CONFIG_BT_BAP_BROADCAST_SRC_STREAM_COUNT)`
(main.c line 155), for a configured stream count `n`. -/
def TOTAL_BUF_NEEDED (n : Nat) : Nat := BROADCAST_ENQUEUE_COUNT * n

/-- The modulus of the C type `uint16_t` of `seq_num`. -/
def UINT16_MOD : Nat := 65536

/-- One diagnostic event (`printk`) of the broadcast application. -/
inductive Report where
  | encoderNotSetup
  | encodeFailed
  | txRejected
  | sentMilestone (cnt : Nat)
  | freqNotSet
  | durNotSet
  | octetsNotSet
  | encoderSetupFailed
deriving Repr, DecidableEq

/-- The mutable per-stream state of `struct broadcast_source_stream`:
`seq_num` (uint16_t), `sent_cnt`, and whether the `lc3_encoder` field is
non-NULL after setup. -/
structure broadcast_source_stream where
  seq_num : Nat
  sent_cnt : Nat
  encoderOk : Bool
deriving Repr, DecidableEq

/-- What one call of `send_data` produced besides the new stream state:
whether the allocated tx buffer was handed back to the pool
(`net_buf_unref`), the sequence number of the successfully submitted
frame if any, and the diagnostics printed. -/
structure SendResult where
  bufReleased : Bool
  emitted : Option Nat
  reports : List Report
deriving Repr, DecidableEq

/-- The body of `send_data` (main.c lines 331-385).  `encRet` is the
return value of `lc3_encode` and `txRet` the return value of
`bt_bap_stream_send`.  The C code checks `lc3_encode` against `-1`
exactly, releases the buffer and returns on every error path, submits
with `source_stream->seq_num++` (the post-increment happens whether or
not the submission is accepted), and increments `sent_cnt` only on
success, printing a milestone every 1000 sends. -/
def send_data (s : broadcast_source_stream) (encRet txRet : Int) :
    broadcast_source_stream × SendResult :=
  if s.encoderOk = false then
    (s, ⟨true, none, [Report.encoderNotSetup]⟩)
  else if encRet = -1 then
    (s, ⟨true, none, [Report.encodeFailed]⟩)
  else if txRet < 0 then
    ({ s with seq_num := (s.seq_num + 1) % UINT16_MOD },
     ⟨true, none, [Report.txRejected]⟩)
  else
    ({ s with seq_num := (s.seq_num + 1) % UINT16_MOD, sent_cnt := s.sent_cnt + 1 },
     ⟨false, some s.seq_num,
      if (s.sent_cnt + 1) % 1000 = 0 then [Report.sentMilestone (s.sent_cnt + 1)] else []⟩)

/-- `stream_started_cb` (main.c lines 511-519): the started callback
resets the sequence counter and the sent counter to zero (the
`k_sem_give(&sem_started)` side is modelled in the barrier and
transition-system sections below). -/
def stream_started_cb (s : broadcast_source_stream) : broadcast_source_stream :=
  { s with seq_num := 0, sent_cnt := 0 }

/-- Iterated cycles of the worker loop of `init_lc3_thread` restricted
to one stream: one `send_data` call per cycle, driven by the per-cycle
environment (`lc3_encode` result, `bt_bap_stream_send` result).
Returns the final stream state and the sequence numbers of the
successfully submitted frames, in emission order. -/
def runStream : broadcast_source_stream → List (Int × Int) →
    broadcast_source_stream × List Nat
  | s, [] => (s, [])
  | s, (e, t) :: rest =>
    ((runStream (send_data s e t).1 rest).1,
     (send_data s e t).2.emitted.toList ++ (runStream (send_data s e t).1 rest).2)

/-- The worker loop across all streams: each cycle serves every stream
in fixed index order and the streams share no mutable state inside
`send_data`, so the run of the broadcast is the list of independent
per-stream runs (one environment list per stream). -/
def runBroadcast (ss : List broadcast_source_stream)
    (envs : List (List (Int × Int))) :
    List (broadcast_source_stream × List Nat) :=
  (ss.zip envs).map fun p => runStream p.1 p.2

/-- A fault-free `send_data` call: encoder present, `lc3_encode`
succeeded, `bt_bap_stream_send` accepted. -/
theorem send_data_ok (s : broadcast_source_stream) (e t : Int)
    (h : s.encoderOk = true) (he : e ≠ -1) (ht : 0 ≤ t) :
    send_data s e t =
      ({ s with seq_num := (s.seq_num + 1) % UINT16_MOD, sent_cnt := s.sent_cnt + 1 },
       ⟨false, some s.seq_num,
        if (s.sent_cnt + 1) % 1000 = 0 then [Report.sentMilestone (s.sent_cnt + 1)] else []⟩) := by
  simp [send_data, h, he, not_lt.mpr ht]

/-- Fault-free cycles never wrap below `UINT16_MOD`: running `k`
fault-free cycles advances `seq_num` by `k`, advances `sent_cnt` by `k`,
and emits exactly the sequence numbers `seq_num, seq_num+1, ...,
seq_num+k-1` in order. -/
theorem runStream_ff (k : Nat) :
    ∀ s : broadcast_source_stream, s.encoderOk = true →
    s.seq_num + k < UINT16_MOD →
    runStream s (List.replicate k ((0 : Int), (0 : Int))) =
      ({ s with seq_num := s.seq_num + k, sent_cnt := s.sent_cnt + k },
       List.range' s.seq_num k) := by
  induction k with
  | zero =>
    intro s h hk
    simp [runStream]
  | succ k ih =>
    intro s h hk
    rw [List.replicate_succ, runStream,
        send_data_ok s 0 0 h (by decide) (by decide)]
    have h1 : (s.seq_num + 1) % UINT16_MOD = s.seq_num + 1 :=
      Nat.mod_eq_of_lt (by omega)
    rw [ih { s with seq_num := (s.seq_num + 1) % UINT16_MOD, sent_cnt := s.sent_cnt + 1 }
          h (by simp [h1]; omega)]
    simp [h1, List.range'_succ]
    constructor
    · omega
    · omega

/-- One `send_data` call increments `sent_cnt` exactly when it emits a
frame. -/
theorem send_data_sent (s : broadcast_source_stream) (e t : Int) :
    (send_data s e t).1.sent_cnt =
      s.sent_cnt + (send_data s e t).2.emitted.toList.length := by
  unfold send_data
  split_ifs <;> simp

/-- Across any run, `sent_cnt` grows by exactly the number of
successfully submitted frames. -/
theorem runStream_sent (env : List (Int × Int)) :
    ∀ s : broadcast_source_stream,
    (runStream s env).1.sent_cnt = s.sent_cnt + (runStream s env).2.length := by
  induction env with
  | nil => intro s; simp [runStream]
  | cons p rest ih =>
    intro s
    obtain ⟨e, t⟩ := p
    have h1 := send_data_sent s e t
    have h2 := ih (send_data s e t).1
    simp only [runStream, List.length_append]
    omega

/-- On a rejected or failed cycle `send_data` does not emit. -/
theorem send_data_encode_error (s : broadcast_source_stream) (t : Int)
    (h : s.encoderOk = true) :
    send_data s (-1) t = (s, ⟨true, none, [Report.encodeFailed]⟩) := by
  simp [send_data, h]

/-- Claim C2: in the reference scenario (2 streams, 1 subgroup,
synthetic feed, 16 kHz / 10 ms preset), starting each stream from its
`stream_started_cb` reset (sequence and sent counters zeroed) and
running 1000 fault-free cycles of the worker loop yields exactly 1000
sent frames per stream, and each stream's emitted sequence numbers are
the contiguous, gap-free, monotonically increasing run 0..999. -/
theorem c2_reference_scenario (s0 s1 : broadcast_source_stream)
    (h0 : s0.encoderOk = true) (h1 : s1.encoderOk = true) :
    runBroadcast [stream_started_cb s0, stream_started_cb s1]
        (List.replicate 2 (List.replicate 1000 ((0 : Int), (0 : Int)))) =
      [({ s0 with seq_num := 1000, sent_cnt := 1000 }, List.range 1000),
       ({ s1 with seq_num := 1000, sent_cnt := 1000 }, List.range 1000)] := by
  have r0 := runStream_ff 1000 (stream_started_cb s0) h0 (by simp [stream_started_cb, UINT16_MOD])
  have r1 := runStream_ff 1000 (stream_started_cb s1) h1 (by simp [stream_started_cb, UINT16_MOD])
  have e2 : List.replicate 2 (List.replicate 1000 ((0 : Int), (0 : Int))) =
      [List.replicate 1000 ((0 : Int), (0 : Int)),
       List.replicate 1000 ((0 : Int), (0 : Int))] := rfl
  rw [e2]
  unfold runBroadcast
  simp only [List.zip_cons_cons, List.zip_nil_left, List.zip_nil_right,
             List.map_cons, List.map_nil]
  rw [r0, r1]
  simp only [stream_started_cb, List.range_eq_range']

/-- Witness for C2 at concrete initial stream states. -/
theorem c2_reference_scenario_witness :
    runBroadcast [stream_started_cb ⟨3, 5, true⟩, stream_started_cb ⟨7, 9, true⟩]
        (List.replicate 2 (List.replicate 1000 ((0 : Int), (0 : Int)))) =
      [(⟨1000, 1000, true⟩, List.range 1000),
       (⟨1000, 1000, true⟩, List.range 1000)] :=
  c2_reference_scenario ⟨3, 5, true⟩ ⟨7, 9, true⟩ rfl rfl

/-- Claim C4 fails on the code: after a transmit rejection the stream is
neither recorded as failed nor excluded — the very next cycle serves it
again.  Here the transport rejects stream state ⟨0, 0, true⟩ in cycle 0,
yet in cycle 1 the same stream is served and successfully emits the
frame with sequence number 1 (and its sequence counter keeps advancing:
it ends at 2, not frozen at 1). -/
theorem c4_counterexample :
    (runStream ⟨0, 0, true⟩ [((0 : Int), (-1 : Int)), ((0 : Int), (0 : Int))]).2 = [1] ∧
    (runStream ⟨0, 0, true⟩ [((0 : Int), (-1 : Int)), ((0 : Int), (0 : Int))]).1 =
      ⟨2, 1, true⟩ := by decide

/-- Claim C4 as amended: on a transmit rejection the buffer is released
immediately and the rejection is reported, but no failure state is
recorded and the stream is not excluded: the scheduler continues to
serve it (and every other stream) on all subsequent cycles, and the
other streams' runs are completely independent of the rejection. -/
theorem c4_amended_rejection (s : broadcast_source_stream) (e t : Int)
    (henc : s.encoderOk = true) (he : e ≠ -1) (ht : t < 0) :
    (send_data s e t).2.bufReleased = true ∧
    (send_data s e t).2.emitted = none ∧
    (send_data s e t).2.reports = [Report.txRejected] ∧
    (send_data s e t).1 =
      { s with seq_num := (s.seq_num + 1) % UINT16_MOD } ∧
    (∀ rest : List (Int × Int),
      runStream s ((e, t) :: rest) =
        runStream { s with seq_num := (s.seq_num + 1) % UINT16_MOD } rest) ∧
    (∀ (s1 : broadcast_source_stream) (env0 env1 : List (Int × Int)),
      runBroadcast [s, s1] [env0, env1] = [runStream s env0, runStream s1 env1]) := by
  have hsd : send_data s e t =
      ({ s with seq_num := (s.seq_num + 1) % UINT16_MOD },
       ⟨true, none, [Report.txRejected]⟩) := by
    simp [send_data, henc, he, ht]
  refine ⟨by simp [hsd], by simp [hsd], by simp [hsd], by simp [hsd], ?_, ?_⟩
  · intro rest
    simp [runStream, hsd]
  · intro s1 env0 env1
    simp [runBroadcast]

/-- Witness for C4's amended theorem. -/
theorem c4_amended_rejection_witness :
    (send_data ⟨0, 0, true⟩ 0 (-1)).2.bufReleased = true :=
  (c4_amended_rejection ⟨0, 0, true⟩ 0 (-1) rfl (by decide) (by decide)).1

/-- Claim C8: an encoder error (`lc3_encode` returning -1) skips the
transmit for the current cycle only: no frame is emitted, the allocated
buffer is released, the stream state is left untouched, the worker
reports the error and continues, and the rest of the run from the next
cycle on is exactly the run that would have happened without the failed
cycle — the stream is attempted again normally. -/
theorem c8_encode_error_skip (s : broadcast_source_stream) (t : Int)
    (h : s.encoderOk = true) :
    (send_data s (-1) t).2.emitted = none ∧
    (send_data s (-1) t).2.bufReleased = true ∧
    (send_data s (-1) t).2.reports = [Report.encodeFailed] ∧
    (send_data s (-1) t).1 = s ∧
    ∀ rest : List (Int × Int),
      runStream s (((-1 : Int), t) :: rest) = runStream s rest := by
  have hsd := send_data_encode_error s t h
  refine ⟨by simp [hsd], by simp [hsd], by simp [hsd], by simp [hsd], ?_⟩
  intro rest
  simp [runStream, hsd]

/-- Witness for C8. -/
theorem c8_encode_error_skip_witness :
    (send_data ⟨4, 2, true⟩ (-1) 0).1 = ⟨4, 2, true⟩ :=
  (c8_encode_error_skip ⟨4, 2, true⟩ 0 rfl).2.2.2.1

/-- Claim C10: the sequence number is post-incremented at the submission
call, so a rejected submission still advances it while `sent_cnt` is
incremented only on success; hence `sent_cnt` counts exactly the
successful submissions, and the first successful frame after a
rejection carries a sequence number one greater than the rejected
frame's, leaving the rejected sequence number as a gap in the emitted
run. -/
theorem c10_seq_gap (s : broadcast_source_stream) (e t : Int)
    (h : s.encoderOk = true) (he : e ≠ -1) (ht : t < 0) :
    (send_data s e t).1.seq_num = (s.seq_num + 1) % UINT16_MOD ∧
    (send_data s e t).1.sent_cnt = s.sent_cnt ∧
    (send_data s e t).2.emitted = none ∧
    (∀ env : List (Int × Int),
      (runStream s env).1.sent_cnt = s.sent_cnt + (runStream s env).2.length) ∧
    (∀ e2 t2 : Int, e2 ≠ -1 → 0 ≤ t2 →
      (send_data (send_data s e t).1 e2 t2).2.emitted =
        some ((s.seq_num + 1) % UINT16_MOD)) := by
  have hsd : send_data s e t =
      ({ s with seq_num := (s.seq_num + 1) % UINT16_MOD },
       ⟨true, none, [Report.txRejected]⟩) := by
    simp [send_data, h, he, ht]
  refine ⟨by simp [hsd], by simp [hsd], by simp [hsd],
          fun env => runStream_sent env s, ?_⟩
  intro e2 t2 he2 ht2
  rw [hsd, send_data_ok _ e2 t2 (by simpa using h) he2 ht2]

/-- Witness for C10: submitting with sequence number 0 is rejected, the
next successful submission emits sequence number 1. -/
theorem c10_seq_gap_witness :
    (send_data (send_data ⟨0, 0, true⟩ 0 (-1)).1 0 0).2.emitted = some 1 := by
  have := (c10_seq_gap ⟨0, 0, true⟩ 0 (-1) rfl (by decide) (by decide)).2.2.2.2 0 0
    (by decide) (by decide)
  simpa using this

/-- The return values of the external codec-configuration getters and
converters that `init_lc3_thread` (main.c lines 387-439) branches on:
`bt_audio_codec_cfg_get_freq`, `bt_audio_codec_cfg_freq_to_freq_hz`,
`bt_audio_codec_cfg_get_frame_dur`,
`bt_audio_codec_cfg_frame_dur_to_frame_dur_us`,
`bt_audio_codec_cfg_get_octets_per_frame`,
`bt_audio_codec_cfg_get_frame_blocks_per_sdu`. -/
structure codec_cfg_rets where
  freqRet : Int
  freqHz : Int
  durRet : Int
  durUs : Int
  octets : Int
  frameBlocks : Int
deriving Repr, DecidableEq

/-- The observable outcome of `init_lc3_thread`'s setup phase: whether
the worker reached the encode/transmit loop (as opposed to returning
early), the diagnostics printed during setup, and the stream states it
leaves behind (each stream's `lc3_encoder` is NULL exactly when
`lc3_setup_encoder` failed for it). -/
structure InitResult where
  entersLoop : Bool
  reports : List Report
  streams : List broadcast_source_stream
deriving Repr, DecidableEq

/-- The setup phase of `init_lc3_thread` (main.c lines 387-439).
Faithful branch structure: a non-positive `get_freq` return exits the
worker silently (no `printk`); a non-positive `get_frame_dur` return,
a negative converted frequency, frame duration, or octets-per-frame
each exit with one diagnostic; `frames_per_sdu` is read but never
checked.  A NULL result of `lc3_setup_encoder` (per stream, given by
`encSetup`) prints a diagnostic but does NOT exit: the worker proceeds
into the encode/transmit loop regardless. -/
def init_lc3_thread (c : codec_cfg_rets) (encSetup : List Bool) : InitResult :=
  if 0 < c.freqRet then
    if 0 < c.durRet then
      if c.freqHz < 0 then ⟨false, [Report.freqNotSet], []⟩
      else if c.durUs < 0 then ⟨false, [Report.durNotSet], []⟩
      else if c.octets < 0 then ⟨false, [Report.octetsNotSet], []⟩
      else
        ⟨true,
         encSetup.filterMap
           (fun ok => if ok then none else some Report.encoderSetupFailed),
         encSetup.map (fun ok => ⟨0, 0, ok⟩)⟩
    else ⟨false, [Report.durNotSet], []⟩
  else ⟨false, [], []⟩

/-- Claim C6 fails on the code: with fully resolved codec parameters but
a failed `lc3_setup_encoder` for stream 0, the worker does not abort —
it enters the encode/transmit loop — and the failure resurfaces at
runtime: every cycle's `send_data` on the broken stream prints the
encoder-not-setup diagnostic again (so the error is not reported exactly
once and does surface after streaming starts). -/
theorem c6_counterexample :
    (init_lc3_thread ⟨1, 16000, 1, 10000, 40, 1⟩ [false, true]).entersLoop = true ∧
    (init_lc3_thread ⟨1, 16000, 1, 10000, 40, 1⟩ [false, true]).reports =
      [Report.encoderSetupFailed] ∧
    (init_lc3_thread ⟨1, 16000, 1, 10000, 40, 1⟩ [false, true]).streams =
      [⟨0, 0, false⟩, ⟨0, 0, true⟩] ∧
    (send_data ⟨0, 0, false⟩ 0 0).2.reports = [Report.encoderNotSetup] ∧
    (send_data ⟨0, 0, false⟩ 0 0).2.emitted = none ∧
    (runStream ⟨0, 0, false⟩ (List.replicate 2 ((0 : Int), (0 : Int)))).2 = [] := by
  decide

/-- Claim C6 as amended: an unresolved codec parameter makes the worker
return before the encode loop (so no encoding or transmission ever
happens) with at most one diagnostic — the unresolved-frequency case
exits silently — but it does not abort process startup, which proceeds
to advertise and start the broadcast without a worker.  A failed LC3
encoder initialization is reported once per failing stream at setup yet
is not fatal: the worker still enters the loop, and on every cycle the
broken stream reports the missing encoder again and transmits
nothing. -/
theorem c6_amended_setup_errors (c : codec_cfg_rets) (encSetup : List Bool) :
    (¬ (0 < c.freqRet ∧ 0 < c.durRet ∧ 0 ≤ c.freqHz ∧ 0 ≤ c.durUs ∧ 0 ≤ c.octets) →
      (init_lc3_thread c encSetup).entersLoop = false ∧
      (init_lc3_thread c encSetup).reports.length ≤ 1) ∧
    ((0 < c.freqRet ∧ 0 < c.durRet ∧ 0 ≤ c.freqHz ∧ 0 ≤ c.durUs ∧ 0 ≤ c.octets) →
      (init_lc3_thread c encSetup).entersLoop = true ∧
      (init_lc3_thread c encSetup).streams = encSetup.map (fun ok => ⟨0, 0, ok⟩) ∧
      (∀ i : Fin encSetup.length, encSetup.get i = false →
        Report.encoderSetupFailed ∈ (init_lc3_thread c encSetup).reports)) ∧
    (∀ (s : broadcast_source_stream) (e t : Int), s.encoderOk = false →
      send_data s e t = (s, ⟨true, none, [Report.encoderNotSetup]⟩)) := by
  refine ⟨?_, ?_, ?_⟩
  · intro hbad
    unfold init_lc3_thread
    split_ifs with h1 h2 h3 h4 h5 <;> simp_all
  · intro hgood
    obtain ⟨hf, hd, hfh, hdu, ho⟩ := hgood
    unfold init_lc3_thread
    rw [if_pos hf, if_pos hd, if_neg (by omega), if_neg (by omega), if_neg (by omega)]
    refine ⟨rfl, rfl, ?_⟩
    intro i hi
    simp only [List.mem_filterMap]
    refine ⟨encSetup.get i, ?_, by simp [List.get_eq_getElem] at hi; simp [hi]⟩
    exact List.get_mem encSetup i.1 i.2
  · intro s e t hs
    simp [send_data, hs]

/-- Witness for C6's amended theorem: an unresolved frequency exits the
worker silently, and resolved parameters with one failed encoder enter
the loop. -/
theorem c6_amended_setup_errors_witness :
    ((init_lc3_thread ⟨0, 0, 0, 0, 0, 0⟩ []).entersLoop = false ∧
     (init_lc3_thread ⟨0, 0, 0, 0, 0, 0⟩ []).reports.length ≤ 1) ∧
    (init_lc3_thread ⟨1, 16000, 1, 10000, 40, 1⟩ [false]).entersLoop = true :=
  ⟨(c6_amended_setup_errors ⟨0, 0, 0, 0, 0, 0⟩ []).1 (by decide),
   ((c6_amended_setup_errors ⟨1, 16000, 1, 10000, 40, 1⟩ [false]).2.1 (by decide)).1⟩

/-- `ring_buf_get(&source_stream->audio_ring_buf, buf, n)` for a
single-producer/single-consumer byte ring holding `ring`: it returns the
first `min n ring.length` bytes without blocking and leaves the rest. -/
def ring_buf_get (ring : List Nat) (want : Nat) : List Nat × List Nat :=
  (ring.take want, ring.drop want)

/-- The CONFIG_USB_DEVICE_AUDIO fill step of `send_data` (main.c lines
352-361): read up to `want` bytes from the ring buffer into the PCM
frame; if fewer were available, `memset` the remainder of the frame to
zero.  The C code emits no diagnostic on this path, so the report list
is always empty.  Returns ((frame, remaining ring), reports). -/
def usb_fill_frame (ring : List Nat) (want : Nat) :
    (List Nat × List Nat) × List Report :=
  (((ring_buf_get ring want).1 ++
      List.replicate (want - (ring_buf_get ring want).1.length) 0,
    (ring_buf_get ring want).2), [])

/-- Claim C7 fails on the code: with only 2 of the 4 required bytes in
the ring buffer, the fill step does produce the exact-length zero-padded
frame, but it reports zero shortfall events, not exactly one — the
underflow is compensated silently. -/
theorem c7_counterexample :
    (usb_fill_frame [7, 7] 4).1.1 = [7, 7, 0, 0] ∧
    (usb_fill_frame [7, 7] 4).2.length = 0 ∧
    (usb_fill_frame [7, 7] 4).2.length ≠ 1 := by decide

/-- Claim C7 as amended: whenever the ring buffer holds fewer bytes than
one full PCM frame requires, the fill step still produces a frame of
exactly the required length with the deficit zero-filled and never
blocks the caller (it is a total function of the ring contents), but it
reports nothing: no shortfall event is logged or counted. -/
theorem c7_amended_fill (ring : List Nat) (want : Nat) :
    (usb_fill_frame ring want).1.1.length = want ∧
    (usb_fill_frame ring want).1.1 =
      ring.take want ++ List.replicate (want - min want ring.length) 0 ∧
    (usb_fill_frame ring want).2 = [] := by
  refine ⟨?_, ?_, rfl⟩
  · simp only [usb_fill_frame, ring_buf_get, List.length_append,
               List.length_take, List.length_replicate]
    omega
  · simp [usb_fill_frame, ring_buf_get]

/-- `BT_DATA_SVC_DATA16` (0x16). -/
def BT_DATA_SVC_DATA16 : Nat := 22

/-- `BT_DATA_BROADCAST_NAME` (0x30). -/
def BT_DATA_BROADCAST_NAME : Nat := 48

/-- `BT_UUID_SIZE_16`. -/
def BT_UUID_SIZE_16 : Nat := 2

/-- `BT_AUDIO_BROADCAST_ID_SIZE`. -/
def BT_AUDIO_BROADCAST_ID_SIZE : Nat := 3

/-- `BT_UUID_BROADCAST_AUDIO_VAL` (0x1852, Broadcast Audio Announcement
Service). -/
def BT_UUID_BROADCAST_AUDIO_VAL : Nat := 6226

/-- `BT_AUDIO_BROADCAST_NAME_LEN_MIN` (Zephyr audio.h). -/
def BT_AUDIO_BROADCAST_NAME_LEN_MIN : Nat := 4

/-- `BT_AUDIO_BROADCAST_NAME_LEN_MAX` (Zephyr audio.h). -/
def BT_AUDIO_BROADCAST_NAME_LEN_MAX : Nat := 32

/-- One advertisement field (`struct bt_data`): a type code and the
field's payload bytes (`data_len` is the payload length). -/
structure bt_data where
  type : Nat
  data : List Nat
deriving Repr, DecidableEq

/-- `struct bt_scan_recv_info` of the scanner application: the 24-bit
broadcast id and the broadcast name found so far (name as raw bytes;
`utf8_lcpy` copies the field's `data_len` bytes). -/
structure bt_scan_recv_info where
  broadcast_id : Nat
  broadcast_name : List Nat
deriving Repr, DecidableEq

/-- `sys_get_le16` on the first two bytes of a field. -/
def sys_get_le16 (l : List Nat) : Nat :=
  l.getD 0 0 + 256 * l.getD 1 0

/-- `sys_get_le24`. -/
def sys_get_le24 (l : List Nat) : Nat :=
  l.getD 0 0 + 256 * l.getD 1 0 + 65536 * l.getD 2 0

/-- The parser callback `broadcast_source_found` (main.c lines 29-61),
as the fold step `bt_data_parse` applies to each advertisement field:
a service-data field long enough to hold a 16-bit UUID plus a 24-bit
broadcast id and whose UUID is the Broadcast Audio UUID sets
`broadcast_id`; a broadcast-name field whose length is in the valid
range sets `broadcast_name`; every other field leaves the info
untouched (the callback returns true — continue — in every case). -/
def broadcast_source_found (info : bt_scan_recv_info) (d : bt_data) :
    bt_scan_recv_info :=
  if d.type = BT_DATA_SVC_DATA16 then
    if d.data.length < BT_UUID_SIZE_16 + BT_AUDIO_BROADCAST_ID_SIZE then info
    else if sys_get_le16 (d.data.take BT_UUID_SIZE_16) ≠ BT_UUID_BROADCAST_AUDIO_VAL then
      info
    else { info with broadcast_id := sys_get_le24 (d.data.drop BT_UUID_SIZE_16) }
  else if d.type = BT_DATA_BROADCAST_NAME then
    if BT_AUDIO_BROADCAST_NAME_LEN_MIN ≤ d.data.length ∧
       d.data.length ≤ BT_AUDIO_BROADCAST_NAME_LEN_MAX then
      { info with broadcast_name := d.data }
    else info
  else info

/-- `bt_data_parse(ad, broadcast_source_found, &sr_info)`: fold the
callback over the advertisement's field list. -/
def bt_data_parse (info : bt_scan_recv_info) (ad : List bt_data) :
    bt_scan_recv_info :=
  ad.foldl broadcast_source_found info

/-- `broadcast_scan_recv` (main.c lines 63-75): reports from
connectable advertisers or advertisers with no periodic interval are
dropped without parsing; otherwise the field list is parsed starting
from a zeroed `sr_info`. -/
def broadcast_scan_recv (connectable : Bool) (interval : Nat)
    (ad : List bt_data) : Option bt_scan_recv_info :=
  if connectable = true ∨ interval = 0 then none
  else some (bt_data_parse ⟨0, []⟩ ad)

/-- Claim C9: the scanner parses a report only from non-connectable
periodic advertisers; the broadcast id is extracted only from a
`BT_DATA_SVC_DATA16` field at least `BT_UUID_SIZE_16 +
BT_AUDIO_BROADCAST_ID_SIZE` bytes long whose 16-bit UUID is the
Broadcast Audio UUID (taking the 24-bit little-endian id that follows
the UUID); the name only from a `BT_DATA_BROADCAST_NAME` field whose
length lies in the valid min..max range; every other field leaves the
parse state unchanged.  The parser is a total function of the field
list (it never blocks). -/
theorem c9_scanner_parse (info : bt_scan_recv_info) (d : bt_data) :
    (∀ (connectable : Bool) (interval : Nat) (ad : List bt_data),
      connectable = true ∨ interval = 0 → broadcast_scan_recv connectable interval ad = none) ∧
    (∀ (connectable : Bool) (interval : Nat) (ad : List bt_data),
      connectable = false → interval ≠ 0 →
      broadcast_scan_recv connectable interval ad = some (bt_data_parse ⟨0, []⟩ ad)) ∧
    (d.type ≠ BT_DATA_SVC_DATA16 → d.type ≠ BT_DATA_BROADCAST_NAME →
      broadcast_source_found info d = info) ∧
    (d.type = BT_DATA_SVC_DATA16 →
      (d.data.length < BT_UUID_SIZE_16 + BT_AUDIO_BROADCAST_ID_SIZE ∨
       sys_get_le16 (d.data.take BT_UUID_SIZE_16) ≠ BT_UUID_BROADCAST_AUDIO_VAL) →
      broadcast_source_found info d = info) ∧
    (d.type = BT_DATA_SVC_DATA16 →
      BT_UUID_SIZE_16 + BT_AUDIO_BROADCAST_ID_SIZE ≤ d.data.length →
      sys_get_le16 (d.data.take BT_UUID_SIZE_16) = BT_UUID_BROADCAST_AUDIO_VAL →
      broadcast_source_found info d =
        { info with broadcast_id := sys_get_le24 (d.data.drop BT_UUID_SIZE_16) }) ∧
    (d.type = BT_DATA_BROADCAST_NAME →
      (d.data.length < BT_AUDIO_BROADCAST_NAME_LEN_MIN ∨
       BT_AUDIO_BROADCAST_NAME_LEN_MAX < d.data.length) →
      broadcast_source_found info d = info) ∧
    (d.type = BT_DATA_BROADCAST_NAME →
      BT_AUDIO_BROADCAST_NAME_LEN_MIN ≤ d.data.length →
      d.data.length ≤ BT_AUDIO_BROADCAST_NAME_LEN_MAX →
      broadcast_source_found info d =
        { info with broadcast_name := d.data }) := by
  refine ⟨?_, ?_, ?_, ?_, ?_, ?_, ?_⟩
  · intro conn intv ad h
    simp [broadcast_scan_recv, h]
  · intro conn intv ad hc hi
    simp [broadcast_scan_recv, hc, hi]
  · intro h1 h2
    simp [broadcast_source_found, h1, h2]
  · intro h1 h2
    rcases h2 with h2 | h2
    · simp [broadcast_source_found, h1, h2]
    · unfold broadcast_source_found
      rw [if_pos h1]
      rcases Nat.lt_or_ge d.data.length (BT_UUID_SIZE_16 + BT_AUDIO_BROADCAST_ID_SIZE) with hl | hl
      · rw [if_pos hl]
      · rw [if_neg (by omega), if_pos h2]
  · intro h1 hlen huuid
    simp [broadcast_source_found, h1, huuid, Nat.not_lt.mpr hlen]
  · intro h1 hout
    have hne : d.type ≠ BT_DATA_SVC_DATA16 := by
      rw [h1]; decide
    unfold broadcast_source_found
    rw [if_neg hne, if_pos h1, if_neg (by omega)]
  · intro h1 hmin hmax
    have hne : d.type ≠ BT_DATA_SVC_DATA16 := by
      rw [h1]; decide
    unfold broadcast_source_found
    rw [if_neg hne, if_pos h1, if_pos ⟨hmin, hmax⟩]

/-- Witness for C9: a two-field advertisement from a non-connectable
periodic advertiser yields the broadcast id 0x123456 from the
service-data field, after an unknown field type was ignored. -/
theorem c9_scanner_parse_witness :
    broadcast_source_found ⟨0, []⟩ ⟨255, [1, 2, 3]⟩ = ⟨0, []⟩ ∧
    broadcast_source_found ⟨0, []⟩ ⟨22, [82, 24, 86, 52, 18]⟩ = ⟨1193046, []⟩ := by
  constructor
  · exact (c9_scanner_parse ⟨0, []⟩ ⟨255, [1, 2, 3]⟩).2.2.1 (by decide) (by decide)
  · have := (c9_scanner_parse ⟨0, []⟩ ⟨22, [82, 24, 86, 52, 18]⟩).2.2.2.2.1
      rfl (by decide) (by decide)
    simpa [sys_get_le24] using this

/-- The counting value of `sem_started` after the given list of
`stream_started_cb` invocations (one `k_sem_give` per callback, each
recorded with the stream that started): `K_SEM_DEFINE(sem_started, 0U,
ARRAY_SIZE(streams))` caps the count at the stream count `n`. -/
def sem_started_count (n : Nat) (gl : List (Fin n)) : Nat :=
  min gl.length n

/-- The startup barrier of `main` (main.c lines 723-726): the
coordinator blocks taking `sem_started` exactly `n` times; the takes all
complete exactly when at least `n` gives arrived. -/
def barrier_released (n : Nat) (gl : List (Fin n)) : Bool :=
  decide (n ≤ sem_started_count n gl)

/-- Claim C1: provided each stream signals started at most once (the
transport invokes `stream_started_cb` once per stream when the broadcast
starts, so the give list has no duplicates), the startup barrier
releases the encode/transmit loop if and only if every one of the `n`
configured streams has signaled started; in particular after only `n-1`
started signals transmission never begins. -/
theorem c1_startup_barrier (n : Nat) (gl : List (Fin n)) (hnd : gl.Nodup) :
    (barrier_released n gl = true ↔ ∀ i : Fin n, i ∈ gl) ∧
    (gl.length = n - 1 → 0 < n → barrier_released n gl = false) := by
  constructor
  · constructor
    · intro h i
      have hlen : n ≤ gl.length := by
        simp only [barrier_released, sem_started_count, decide_eq_true_eq,
                   Nat.le_min] at h
        exact h.1
      have hcard : gl.toFinset.card = gl.length := List.toFinset_card_of_nodup hnd
      have huniv : gl.toFinset = Finset.univ := by
        apply Finset.eq_univ_of_card
        have hle : gl.toFinset.card ≤ Fintype.card (Fin n) := Finset.card_le_univ _
        simp only [Fintype.card_fin] at hle ⊢
        omega
      have : i ∈ gl.toFinset := by rw [huniv]; exact Finset.mem_univ i
      exact List.mem_toFinset.mp this
    · intro h
      have huniv : gl.toFinset = Finset.univ :=
        Finset.eq_univ_iff_forall.mpr fun i => List.mem_toFinset.mpr (h i)
      have h1 : n ≤ gl.toFinset.card := by
        rw [huniv]
        simp
      have h2 : gl.toFinset.card ≤ gl.length := gl.toFinset_card_le
      simp only [barrier_released, sem_started_count, decide_eq_true_eq, Nat.le_min]
      omega
  · intro hlen hn
    simp only [barrier_released, sem_started_count, hlen, decide_eq_false_iff_not,
               Nat.le_min, not_and]
    intro h
    omega

/-- Witness for C1: with 2 configured streams and a started signal from
each, the barrier releases. -/
theorem c1_startup_barrier_witness : barrier_released 2 [0, 1] = true :=
  (c1_startup_barrier 2 [0, 1] (by decide)).1.mpr (by decide)

/-- The state shared between `main`, the stream callbacks and the
encoder worker: the pending give count of `sem_started`, whether `main`
passed the startup-barrier take loop, whether `main` ran the one-time
credit-seeding loop, the count of the shared credit semaphore
`lc3_encoder_sem`, the number of completed worker cycles (each cycle
takes the semaphore once per stream and then serves every stream), and
per stream the number of transmit-complete (`stream_sent_cb`)
notifications received. -/
structure SysState (n : Nat) where
  started_gives : Nat
  barrier_done : Bool
  seeded : Bool
  sem : Nat
  cycles : Nat
  completes : Fin n → Nat

/-- The boot state: both semaphores at zero, nothing run yet. -/
def SysState.init (n : Nat) : SysState n :=
  ⟨0, false, false, 0, 0, fun _ => 0⟩

/-- One `k_sem_give`: a Zephyr semaphore give caps the count at the
semaphore's limit. -/
def give (limit c : Nat) : Nat := min (c + 1) limit

/-- `k` successive `k_sem_give` calls. -/
def gives (limit : Nat) : Nat → Nat → Nat
  | c, 0 => c
  | c, k + 1 => gives limit (give limit c) k

theorem gives_eq (limit : Nat) :
    ∀ (k c : Nat), c ≤ limit → gives limit c k = min (c + k) limit := by
  intro k
  induction k with
  | zero =>
    intro c hc
    simp [gives]
    omega
  | succ k ih =>
    intro c hc
    rw [gives, ih (give limit c) (by simp [give])]
    simp [give]
    omega

/-- The events of the concurrent system. -/
inductive Ev (n : Nat) where
  | started (i : Fin n)
  | barrier
  | seed
  | cycle
  | complete (i : Fin n)

/-- The labelled transition relation of the program:

* `started i` — `stream_started_cb` for stream `i` gives `sem_started`
  (limit `n`, main.c line 304/518);
* `barrier` — `main`'s take loop completes once `n` gives arrived
  (main.c lines 723-726), consuming them;
* `seed` — `main`'s one-shot seeding loop (lines 730-734) calls
  `stream_sent_cb` `BROADCAST_ENQUEUE_COUNT` times per stream, i.e.
  `TOTAL_BUF_NEEDED n` gives of `lc3_encoder_sem` (limit
  `TOTAL_BUF_NEEDED n`, line 314); it runs right after the barrier and
  only once;
* `cycle` — the worker loop body (lines 441-448) takes
  `lc3_encoder_sem` once per stream and then serves every stream;
* `complete i` — the controller reports one of stream `i`'s submitted
  buffers as transmitted: `stream_sent_cb` gives `lc3_encoder_sem`; a
  stream can have at most one completion per frame it was ever served
  (one submission attempt per cycle). -/
inductive Step (n : Nat) : SysState n → Ev n → SysState n → Prop where
  | started (s : SysState n) (i : Fin n) :
      Step n s (Ev.started i) { s with started_gives := give n s.started_gives }
  | barrier (s : SysState n) (h1 : s.barrier_done = false)
      (h2 : n ≤ s.started_gives) :
      Step n s Ev.barrier
        { s with barrier_done := true, started_gives := s.started_gives - n }
  | seed (s : SysState n) (h1 : s.barrier_done = true) (h2 : s.seeded = false) :
      Step n s Ev.seed
        { s with seeded := true,
                 sem := gives (TOTAL_BUF_NEEDED n) s.sem (TOTAL_BUF_NEEDED n) }
  | cycle (s : SysState n) (h : n ≤ s.sem) :
      Step n s Ev.cycle { s with sem := s.sem - n, cycles := s.cycles + 1 }
  | complete (s : SysState n) (i : Fin n) (h : s.completes i < s.cycles) :
      Step n s (Ev.complete i)
        { s with sem := give (TOTAL_BUF_NEEDED n) s.sem,
                 completes := Function.update s.completes i (s.completes i + 1) }

/-- The states reachable from boot. -/
inductive Reach (n : Nat) : SysState n → Prop where
  | init : Reach n (SysState.init n)
  | step (s : SysState n) (e : Ev n) (s' : SysState n) :
      Reach n s → Step n s e s' → Reach n s'

/-- The inductive system invariant: the credit semaphore never exceeds
its limit, no stream has more completions than cycles it was served in,
nothing runs before its enabling phase (no cycle and no completion
before the one-time seed, no seed before the barrier, and the seed finds
the credit semaphore empty). -/
def SysInv (n : Nat) (s : SysState n) : Prop :=
  s.sem ≤ TOTAL_BUF_NEEDED n ∧
  (∀ i : Fin n, s.completes i ≤ s.cycles) ∧
  (s.seeded = false → 0 < n →
    s.cycles = 0 ∧ s.sem = 0 ∧ ∀ i : Fin n, s.completes i = 0) ∧
  (s.seeded = true → s.barrier_done = true)

theorem sysInv_init (n : Nat) : SysInv n (SysState.init n) := by
  refine ⟨by simp [SysState.init], by simp [SysState.init], ?_, by simp [SysState.init]⟩
  intro _ _
  exact ⟨rfl, rfl, fun _ => rfl⟩

theorem sysInv_step (n : Nat) (s : SysState n) (e : Ev n) (s' : SysState n)
    (hs : SysInv n s) (h : Step n s e s') : SysInv n s' := by
  obtain ⟨i1, i2, i3, i4⟩ := hs
  cases h with
  | started i =>
    exact ⟨i1, i2, i3, i4⟩
  | barrier h1 h2 =>
    exact ⟨i1, i2, i3, fun _ => rfl⟩
  | seed h1 h2 =>
    refine ⟨?_, i2, by simp, fun _ => h1⟩
    show gives (TOTAL_BUF_NEEDED n) s.sem (TOTAL_BUF_NEEDED n) ≤ TOTAL_BUF_NEEDED n
    rw [gives_eq _ _ _ i1]
    omega
  | cycle h =>
    refine ⟨by simp; omega, fun i => by simp; exact Nat.le_succ_of_le (i2 i), ?_, i4⟩
    intro hns hn
    obtain ⟨-, hsem, -⟩ := i3 hns hn
    omega
  | complete i h =>
    refine ⟨by simp [give], ?_, ?_, i4⟩
    · intro j
      by_cases hji : j = i
      · subst hji
        simp
        omega
      · simp [Function.update_noteq hji]
        exact i2 j
    · intro hns hn
      obtain ⟨hcy, -, -⟩ := i3 hns hn
      omega

/-- Every reachable state satisfies the invariant. -/
theorem sysInv_reach (n : Nat) (s : SysState n) (h : Reach n s) : SysInv n s := by
  induction h with
  | init => exact sysInv_init n
  | step s e s' _ hstep ih => exact sysInv_step n s e s' ih hstep

/-- The transmit credits outstanding for stream `i`: its share of the
one-time seed (`BROADCAST_ENQUEUE_COUNT`) plus one credit per
transmit-complete notification for `i`, minus the one credit the
scheduler consumed for `i` in each cycle. -/
def outstanding_credits (n : Nat) (s : SysState n) (i : Fin n) : Int :=
  (if s.seeded then (BROADCAST_ENQUEUE_COUNT : Int) else 0) + s.completes i - s.cycles

/-- Claim C3: at every reachable point in execution, the outstanding
transmit credits of any single stream never exceed the configured
enqueue depth `BROADCAST_ENQUEUE_COUNT = 3` — each transmit-complete
notification returns exactly one credit for its stream, the scheduler
consumes one credit per stream per cycle, and the shared credit
semaphore itself never exceeds its limit of
`BROADCAST_ENQUEUE_COUNT * n`. -/
theorem c3_credit_bound (n : Nat) (s : SysState n) (hr : Reach n s) (i : Fin n) :
    outstanding_credits n s i ≤ BROADCAST_ENQUEUE_COUNT ∧
    s.sem ≤ TOTAL_BUF_NEEDED n := by
  obtain ⟨i1, i2, -, -⟩ := sysInv_reach n s hr
  refine ⟨?_, i1⟩
  have := i2 i
  unfold outstanding_credits
  split <;> [omega; omega]

/-- Witness for C3 at the boot state of the 2-stream configuration. -/
theorem c3_credit_bound_witness :
    outstanding_credits 2 (SysState.init 2) 0 ≤ BROADCAST_ENQUEUE_COUNT ∧
    (SysState.init 2).sem ≤ TOTAL_BUF_NEEDED 2 :=
  c3_credit_bound 2 (SysState.init 2) Reach.init 0

/-- Claim C5: the one-time credit seeding happens only after the startup
barrier has completed and before any scheduler cycle has run (no cycle
is possible while `seeded` is false), it fills the credit semaphore with
exactly `BROADCAST_ENQUEUE_COUNT * n` credits — `BROADCAST_ENQUEUE_COUNT`
per configured stream — from its empty pre-seed state, a second seeding
can never occur, and no step other than the seed or a transmit-complete
notification ever creates a credit. -/
theorem c5_initial_seed (n : Nat) (hn : 0 < n) (s : SysState n) (hr : Reach n s) :
    (s.seeded = false → s.cycles = 0) ∧
    (s.seeded = true → s.barrier_done = true) ∧
    (∀ s' : SysState n, Step n s Ev.seed s' →
      s.barrier_done = true ∧ s.seeded = false ∧
      s'.sem = BROADCAST_ENQUEUE_COUNT * n) ∧
    (s.seeded = true → ∀ s' : SysState n, ¬ Step n s Ev.seed s') ∧
    (∀ (e : Ev n) (s' : SysState n), Step n s e s' → s.sem < s'.sem →
      e = Ev.seed ∨ ∃ i : Fin n, e = Ev.complete i) := by
  obtain ⟨i1, i2, i3, i4⟩ := sysInv_reach n s hr
  refine ⟨fun hns => (i3 hns hn).1, i4, ?_, ?_, ?_⟩
  · intro s' hstep
    cases hstep with
    | seed h1 h2 =>
      refine ⟨h1, h2, ?_⟩
      obtain ⟨-, hsem, -⟩ := i3 h2 hn
      simp only [hsem]
      rw [gives_eq _ _ _ (by omega)]
      simp [TOTAL_BUF_NEEDED]
  · intro hsd s' hstep
    cases hstep with
    | seed h1 h2 => rw [hsd] at h2; simp at h2
  · intro e s' hstep hlt
    cases hstep with
    | started i => simp at hlt
    | barrier h1 h2 => simp at hlt
    | seed h1 h2 => exact Or.inl rfl
    | cycle h => simp at hlt; omega
    | complete i h => exact Or.inr ⟨i, rfl⟩

/-- Witness for C5 at the boot state of the 2-stream configuration. -/
theorem c5_initial_seed_witness : (SysState.init 2).cycles = 0 :=
  (c5_initial_seed 2 (by decide) (SysState.init 2) Reach.init).1 rfl

end BroadcastAudio
